import Mathlib

/-!
Verification of the nginx cache file inspector (`nginx_cache_file_info.py`).

Files are modelled as lists of byte values (`List Nat`, each entry the value of
one byte).  Python exceptions raised during parsing are modelled by an explicit
error type, and the non-fatal warning printed to stderr by a `Bool` component
of the parse result.  Epoch instants are modelled as their second counts
(`datetime.fromtimestamp` is injective where it succeeds, so an instant is
identified with its epoch-second value); `datetime.fromtimestamp` itself is
fallible — it raises OverflowError/ValueError for timestamps beyond datetime's
year-9999 cap — and is modelled by the fallible `fromtimestamp` below.
-/

set_option maxRecDepth 100000

namespace NginxCacheInfo

/-- Little-endian unsigned integer: read `n` bytes of `buf` starting at `off`
(`struct.unpack` with a little-endian format).  Out-of-range reads give 0;
the source only reads in range because it checks the buffer length first. -/
def readLE (buf : List Nat) (off : Nat) : Nat → Nat
  | 0 => 0
  | n + 1 => buf.getD off 0 + 256 * readLE buf (off + 1) n

/-- `struct.pack` little-endian: the `n` bytes of `v`, least significant first. -/
def packLE (v : Nat) : Nat → List Nat
  | 0 => []
  | n + 1 => v % 256 :: packLE (v / 256) n

/-- Python slice `d[a:b]` for nonnegative indices: clamped, empty when `b ≤ a`. -/
def pySlice (d : List Nat) (a b : Nat) : List Nat := (d.take b).drop a

/-- Exceptions the script can raise while parsing a cache file:
`structError` for `struct.error` (buffer shorter than the fixed integer block),
`unsupportedVersion` for the explicit `Exception` on a version other than 5,
`timestampOutOfRange` for the OverflowError/ValueError raised by
`datetime.fromtimestamp` on a timestamp beyond datetime's range,
`nonAscii` for `UnicodeDecodeError` from `bytes.decode` with the ascii codec,
`badKeyDelimiter` for `AssertionError` from the two key-delimiter asserts. -/
inductive ParseError
  | structError
  | unsupportedVersion (v : Nat)
  | timestampOutOfRange
  | nonAscii
  | badKeyDelimiter
  deriving DecidableEq, Repr

/-- Python 3 `set(bytes) == {0}`: the buffer is nonempty and every byte is 0. -/
def isAllZero (bs : List Nat) : Bool := !bs.isEmpty && bs.all (fun x => x == 0)

/-- `bytes.decode('ascii')`: succeeds exactly when every byte is below 128,
returning the character codes unchanged (`UnicodeDecodeError` otherwise). -/
def decode_ascii (bs : List Nat) : Except ParseError (List Nat) :=
  if bs.all (fun x => x < 128) then .ok bs else .error .nonAscii

/-- `string_or_none` of the source: an all-zero buffer decodes to `None`,
anything else is decoded with the ascii codec (no stripping of any kind). -/
def string_or_none (bs : List Nat) : Except ParseError (Option (List Nat)) :=
  if isAllZero bs then .ok none else (decode_ascii bs).map some

/-- The largest epoch-second count `datetime.fromtimestamp` accepts:
`datetime` caps years at 9999, and 253402300799 is 9999-12-31T23:59:59 UTC.
The exact cut-off shifts by the local UTC offset (a matter of hours); every
value this development exercises is either far below it (genuine instants) or
orders of magnitude above it (for example `2 ^ 40`), where every timezone and
platform agree. -/
def DATETIME_MAX_TIMESTAMP : Nat := 253402300799

/-- `datetime.fromtimestamp(timet)` for a nonnegative integer `timet`: the
instant with that many epoch seconds when in range, otherwise the
OverflowError/ValueError the library raises (year out of range). -/
def fromtimestamp (timet : Nat) : Except ParseError Nat :=
  if timet ≤ DATETIME_MAX_TIMESTAMP then .ok timet
  else .error .timestampOutOfRange

/-- `datetime_or_none` of the source: the 64-bit all-ones sentinel means `None`
(returned before `fromtimestamp` is called); any other value is passed to
`datetime.fromtimestamp`, which yields the instant or raises. -/
def datetime_or_none (timet : Nat) : Except ParseError (Option Nat) :=
  if timet = 2 ^ 64 - 1 then .ok none
  else (fromtimestamp timet).map some

def NGINX_CACHE_HEADER_SIZE : Nat := 336

structure NginxCacheHeader where
  version : Nat
  valid_sec : Option Nat
  updating_sec : Nat
  error_sec : Nat
  last_modified : Option Nat
  date : Option Nat
  crc32 : Nat
  valid_msec : Nat
  header_start : Nat
  body_start : Nat
  etag_len : Nat
  etag : Option (List Nat)
  vary_len : Nat
  vary : Option (List Nat)
  variant : Option (List Nat)
  deriving DecidableEq, Repr

/-- The tuple `(hdr, key, http_header, http_body)` returned by the parser. -/
structure ParseOutput where
  hdr : NginxCacheHeader
  key : List Nat
  http_header : List Nat
  http_body : List Nat
  deriving DecidableEq, Repr

/-- The byte codes of the literal `"\nKEY: "`. -/
def nKEY : List Nat := [10, 75, 69, 89, 58, 32]

/-- Key extraction from the region `d[336:header_start]`:
`key = region.decode('ascii')`, `assert key[:6] == '\nKEY: '`,
`assert key[-1] == '\n'`, result `key[6:-1]`. -/
def extract_key (bs : List Nat) : Except ParseError (List Nat) :=
  match decode_ascii bs with
  | .error e => .error e
  | .ok key =>
    if key.take 6 = nKEY then
      if key.getLastD 0 = 10 then .ok ((key.take (key.length - 1)).drop 6)
      else .error .badKeyDelimiter
    else .error .badKeyDelimiter

instance {ε α : Type} [DecidableEq ε] [DecidableEq α] : DecidableEq (Except ε α)
  | .error e, .error e' => decidable_of_iff (e = e') (by simp)
  | .error _, .ok _ => isFalse (fun h => Except.noConfusion h)
  | .ok _, .error _ => isFalse (fun h => Except.noConfusion h)
  | .ok a, .ok a' => decidable_of_iff (a = a') (by simp)

/-- `parse_nginx_cache_file`, on the file contents `d`.  The first component is
the returned tuple or the exception raised; the second records whether the
"Unexpected non-zero bytes" warning was printed to stderr before that point.

Field offsets follow `struct.calcsize('<QQQQQQIHHHB') = 59` and the running
`offset` variable of the source: etag at `header[59:187]`, vary at
`header[188:316]`, variant at `header[316:332]`, padding at `d[332:336]`.
The three `datetime_or_none` conversions happen right after the version check
(source lines 99-101, fields 1, 4 and 5 in that order), BEFORE the text-field
decodes and the padding check, so a `fromtimestamp` failure pre-empts them.
`vary_len` is `struct.unpack_from('B', header)` exactly as in the source,
which passes no offset argument, so the byte is read at offset 0. -/
def parse_nginx_cache_file (d : List Nat) : Except ParseError ParseOutput × Bool :=
  let header := d.take NGINX_CACHE_HEADER_SIZE
  if header.length < 59 then (.error .structError, false) else
  let version := readLE header 0 8
  if version ≠ 5 then (.error (.unsupportedVersion version), false) else
  match datetime_or_none (readLE header 8 8) with
  | .error e => (.error e, false)
  | .ok valid_sec =>
  match datetime_or_none (readLE header 32 8) with
  | .error e => (.error e, false)
  | .ok last_modified =>
  match datetime_or_none (readLE header 40 8) with
  | .error e => (.error e, false)
  | .ok date =>
  match string_or_none (pySlice header 59 187) with
  | .error e => (.error e, false)
  | .ok etag =>
  match string_or_none (pySlice header 188 316) with
  | .error e => (.error e, false)
  | .ok vary =>
  match string_or_none (pySlice header 316 332) with
  | .error e => (.error e, false)
  | .ok variant =>
  let extra := pySlice d 332 NGINX_CACHE_HEADER_SIZE
  let warn := !isAllZero extra
  let hdr : NginxCacheHeader :=
    { version := version
      valid_sec := valid_sec
      updating_sec := readLE header 16 8
      error_sec := readLE header 24 8
      last_modified := last_modified
      date := date
      crc32 := readLE header 48 4
      valid_msec := readLE header 52 2
      header_start := readLE header 54 2
      body_start := readLE header 56 2
      etag_len := header.getD 58 0
      etag := etag
      vary_len := header.getD 0 0
      vary := vary
      variant := variant }
  match extract_key (pySlice d NGINX_CACHE_HEADER_SIZE hdr.header_start) with
  | .error e => (.error e, warn)
  | .ok key =>
  match decode_ascii (pySlice d hdr.header_start hdr.body_start) with
  | .error e => (.error e, warn)
  | .ok http_header =>
  (.ok { hdr := hdr, key := key, http_header := http_header,
         http_body := d.drop hdr.body_start }, warn)

/-- `struct.pack('<Q', v)`: the 8 little-endian bytes of `v`, raising
`struct.error` (modelled as `none`) when `v` is out of 64-bit range. -/
def struct_pack_Q (v : Nat) : Option (List Nat) :=
  if v < 2 ^ 64 then some (packLE v 8) else none

/-- `set_expire_nginx_cache_file`: open for update, `seek(8)`, write the packed
8 bytes.  On a file shorter than 8 bytes the gap up to offset 8 is zero-filled
(POSIX write past end of file); bytes 8..15 are replaced, the rest is kept. -/
def set_expire_nginx_cache_file (d : List Nat) (valid_sec : Nat) :
    Option (List Nat) :=
  (struct_pack_Q valid_sec).map
    (fun bs => d.take 8 ++ List.replicate (8 - d.length) 0 ++ bs ++ d.drop 16)

/-- A well-formed 349-byte cache file: version 5, all timestamps 0, all text
buffers zero, `header_start = body_start = 349`, key region `"\nKEY: abcdef\n"`. -/
def goodFile : List Nat :=
  [5] ++ List.replicate 53 0 ++ [93, 1, 93, 1] ++ List.replicate 278 0 ++
    [10, 75, 69, 89, 58, 32, 97, 98, 99, 100, 101, 102, 10]

/-- The parse of `goodFile`. -/
def goodParsed : ParseOutput :=
  { hdr :=
    { version := 5
      valid_sec := some 0
      updating_sec := 0
      error_sec := 0
      last_modified := some 0
      date := some 0
      crc32 := 0
      valid_msec := 0
      header_start := 349
      body_start := 349
      etag_len := 0
      etag := none
      vary_len := 5
      vary := none
      variant := none }
    key := [97, 98, 99, 100, 101, 102]
    http_header := []
    http_body := [] }

/- `datetime_or_none`'s sentinel test compares a 64-bit literal with a stuck
`readLE` tower; keeping the definition locally irreducible while the parser is
taken apart stops the elaborator from re-evaluating that comparison at every
match it reduces.  The sections close before the concrete evaluations. -/
section

attribute [local irreducible] datetime_or_none

/-! ### Error classification of the auxiliary decoders -/

theorem decode_ascii_error {bs : List Nat} {e : ParseError}
    (h : decode_ascii bs = .error e) : e = .nonAscii := by
  unfold decode_ascii at h
  split at h
  · exact absurd h (by simp)
  · injection h with h; exact h.symm

theorem string_or_none_error {bs : List Nat} {e : ParseError}
    (h : string_or_none bs = .error e) : e = .nonAscii := by
  unfold string_or_none at h
  split at h
  · exact absurd h (by simp)
  · cases hd : decode_ascii bs with
    | error e' =>
        rw [hd] at h
        injection h with h
        exact h.symm.trans (decode_ascii_error hd)
    | ok v => rw [hd] at h; exact absurd h (by simp [Except.map])

theorem datetime_or_none_error {t : Nat} {e : ParseError}
    (h : datetime_or_none t = .error e) : e = .timestampOutOfRange := by
  unfold datetime_or_none fromtimestamp at h
  split at h
  · exact absurd h (by simp)
  · split at h
    · simp [Except.map] at h
    · simp only [Except.map] at h
      injection h with h
      exact h.symm

theorem datetime_or_none_ok {t : Nat} {v : Option Nat}
    (h : datetime_or_none t = .ok v) :
    v = (if t = 2 ^ 64 - 1 then none else some t) ∧
      (t ≠ 2 ^ 64 - 1 → t ≤ DATETIME_MAX_TIMESTAMP) := by
  unfold datetime_or_none fromtimestamp at h
  split at h
  next hs =>
    injection h with h
    refine ⟨?_, fun hne => absurd hs hne⟩
    rw [if_pos hs]
    exact h.symm
  next hs =>
    split at h
    next hle =>
      simp only [Except.map] at h
      injection h with h
      refine ⟨?_, fun _ => hle⟩
      rw [if_neg hs]
      exact h.symm
    next hle => simp [Except.map] at h

theorem datetime_or_none_in_range {t : Nat} (ht : t ≤ DATETIME_MAX_TIMESTAMP) :
    datetime_or_none t = .ok (some t) := by
  have h64 : (2 : Nat) ^ 64 - 1 = 18446744073709551615 := by norm_num
  have hne : t ≠ 2 ^ 64 - 1 := by
    rw [h64]
    unfold DATETIME_MAX_TIMESTAMP at ht
    omega
  unfold datetime_or_none fromtimestamp
  rw [if_neg hne, if_pos ht]
  rfl

theorem extract_key_error {bs : List Nat} {e : ParseError}
    (h : extract_key bs = .error e) : e = .nonAscii ∨ e = .badKeyDelimiter := by
  unfold extract_key at h
  split at h
  next e' hd => injection h with h; exact Or.inl (h.symm.trans (decode_ascii_error hd))
  next key hd =>
    split at h
    · split at h
      · exact absurd h (by simp)
      · injection h with h; exact Or.inr h.symm
    · injection h with h; exact Or.inr h.symm

/-! ### Inversion and introduction for a successful parse -/

set_option maxHeartbeats 2000000 in
theorem parse_ok_inv {d : List Nat} {r : ParseOutput} {w : Bool}
    (h : parse_nginx_cache_file d = (.ok r, w)) :
    59 ≤ d.length ∧
    readLE (d.take 336) 0 8 = 5 ∧
    r.hdr.version = 5 ∧
    datetime_or_none (readLE (d.take 336) 8 8) = .ok r.hdr.valid_sec ∧
    r.hdr.updating_sec = readLE (d.take 336) 16 8 ∧
    r.hdr.error_sec = readLE (d.take 336) 24 8 ∧
    datetime_or_none (readLE (d.take 336) 32 8) = .ok r.hdr.last_modified ∧
    datetime_or_none (readLE (d.take 336) 40 8) = .ok r.hdr.date ∧
    r.hdr.crc32 = readLE (d.take 336) 48 4 ∧
    r.hdr.valid_msec = readLE (d.take 336) 52 2 ∧
    r.hdr.header_start = readLE (d.take 336) 54 2 ∧
    r.hdr.body_start = readLE (d.take 336) 56 2 ∧
    r.hdr.etag_len = (d.take 336).getD 58 0 ∧
    r.hdr.vary_len = (d.take 336).getD 0 0 ∧
    string_or_none (pySlice (d.take 336) 59 187) = .ok r.hdr.etag ∧
    string_or_none (pySlice (d.take 336) 188 316) = .ok r.hdr.vary ∧
    string_or_none (pySlice (d.take 336) 316 332) = .ok r.hdr.variant ∧
    extract_key (pySlice d 336 r.hdr.header_start) = .ok r.key ∧
    decode_ascii (pySlice d r.hdr.header_start r.hdr.body_start) = .ok r.http_header ∧
    r.http_body = d.drop r.hdr.body_start ∧
    w = !isAllZero (pySlice d 332 336) := by
  unfold parse_nginx_cache_file at h
  simp only [NGINX_CACHE_HEADER_SIZE] at h
  split at h
  · exact absurd h (by simp)
  next hlen =>
  split at h
  · exact absurd h (by simp)
  next hver =>
  split at h
  · exact absurd h (by simp)
  next vsec hvs =>
  split at h
  · exact absurd h (by simp)
  next lmod hlm =>
  split at h
  · exact absurd h (by simp)
  next dat hdt =>
  split at h
  · exact absurd h (by simp)
  next etag hetag =>
  split at h
  · exact absurd h (by simp)
  next vary hvary =>
  split at h
  · exact absurd h (by simp)
  next variant hvariant =>
  split at h
  · exact absurd h (by simp)
  next key hkey =>
  split at h
  · exact absurd h (by simp)
  next http hhttp =>
  injection h with h1 h2
  injection h1 with h1
  subst h1
  subst h2
  simp only [List.length_take, not_lt] at hlen
  simp only [ne_eq, not_not] at hver
  refine ⟨by omega, hver, ?_, ?_, ?_, ?_, ?_, ?_, ?_, ?_, ?_, ?_, ?_, ?_, ?_, ?_,
    ?_, ?_, ?_, ?_, ?_⟩
  · simp only []; exact hver
  · simp only []; exact hvs
  · simp only []
  · simp only []
  · simp only []; exact hlm
  · simp only []; exact hdt
  · simp only []
  · simp only []
  · simp only []
  · simp only []
  · simp only []
  · simp only []
  · simp only []; exact hetag
  · simp only []; exact hvary
  · simp only []; exact hvariant
  · simp only []; exact hkey
  · simp only []; exact hhttp
  · simp only []
  · simp only []

set_option maxHeartbeats 1000000 in
theorem parse_ok_intro {d : List Nat} {vsv lmv dtv : Option Nat}
    {etagv varyv variantv : Option (List Nat)}
    {keyv httpv : List Nat}
    (h59 : 59 ≤ d.length)
    (hver : readLE (d.take 336) 0 8 = 5)
    (hvs : datetime_or_none (readLE (d.take 336) 8 8) = .ok vsv)
    (hlm : datetime_or_none (readLE (d.take 336) 32 8) = .ok lmv)
    (hdt : datetime_or_none (readLE (d.take 336) 40 8) = .ok dtv)
    (hetag : string_or_none (pySlice (d.take 336) 59 187) = .ok etagv)
    (hvary : string_or_none (pySlice (d.take 336) 188 316) = .ok varyv)
    (hvariant : string_or_none (pySlice (d.take 336) 316 332) = .ok variantv)
    (hkey : extract_key (pySlice d 336 (readLE (d.take 336) 54 2)) = .ok keyv)
    (hhttp : decode_ascii
        (pySlice d (readLE (d.take 336) 54 2) (readLE (d.take 336) 56 2)) =
      .ok httpv) :
    parse_nginx_cache_file d =
      (.ok
        { hdr :=
          { version := readLE (d.take 336) 0 8
            valid_sec := vsv
            updating_sec := readLE (d.take 336) 16 8
            error_sec := readLE (d.take 336) 24 8
            last_modified := lmv
            date := dtv
            crc32 := readLE (d.take 336) 48 4
            valid_msec := readLE (d.take 336) 52 2
            header_start := readLE (d.take 336) 54 2
            body_start := readLE (d.take 336) 56 2
            etag_len := (d.take 336).getD 58 0
            etag := etagv
            vary_len := (d.take 336).getD 0 0
            vary := varyv
            variant := variantv }
          key := keyv
          http_header := httpv
          http_body := d.drop (readLE (d.take 336) 56 2) },
        !isAllZero (pySlice d 332 336)) := by
  unfold parse_nginx_cache_file
  simp only [NGINX_CACHE_HEADER_SIZE]
  rw [if_neg (by simp only [List.length_take, not_lt]; omega)]
  rw [if_neg (by simp only [hver, ne_eq, not_true_eq_false, not_false_eq_true])]
  rw [hvs]
  simp only []
  rw [hlm]
  simp only []
  rw [hdt]
  simp only []
  rw [hetag]
  simp only []
  rw [hvary]
  simp only []
  rw [hvariant]
  simp only []
  rw [hkey]
  simp only []
  rw [hhttp]

/-! ### Byte-level helper lemmas -/

theorem length_packLE (v n : Nat) : (packLE v n).length = n := by
  induction n generalizing v with
  | zero => rfl
  | succ n ih => simp [packLE, ih]

theorem getD_take_lt (l : List Nat) (m i : Nat) (h : i < m) :
    (l.take m).getD i 0 = l.getD i 0 := by
  induction l generalizing m i with
  | nil => simp
  | cons a t ih =>
    cases m with
    | zero => omega
    | succ m =>
      cases i with
      | zero => simp
      | succ i =>
          simpa [List.take_succ_cons, List.getD_cons_succ] using ih m i (by omega)

theorem getD_drop_add (l : List Nat) (m i : Nat) :
    (l.drop m).getD i 0 = l.getD (m + i) 0 := by
  induction l generalizing m with
  | nil => simp
  | cons a t ih =>
    cases m with
    | zero => simp
    | succ m =>
        simp only [List.drop_succ_cons, List.getD_cons_succ, Nat.succ_add]
        exact ih m

theorem readLE_congr (n : Nat) {l₁ l₂ : List Nat} {o₁ o₂ : Nat}
    (h : ∀ i, i < n → l₁.getD (o₁ + i) 0 = l₂.getD (o₂ + i) 0) :
    readLE l₁ o₁ n = readLE l₂ o₂ n := by
  induction n generalizing o₁ o₂ with
  | zero => rfl
  | succ n ih =>
    have h0 : l₁.getD o₁ 0 = l₂.getD o₂ 0 := by simpa using h 0 (by omega)
    have hrest : readLE l₁ (o₁ + 1) n = readLE l₂ (o₂ + 1) n := by
      apply ih
      intro i hi
      have hh := h (i + 1) (by omega)
      rwa [show o₁ + (i + 1) = o₁ + 1 + i by omega,
        show o₂ + (i + 1) = o₂ + 1 + i by omega] at hh
    simp only [readLE]
    rw [h0, hrest]

theorem readLE_take (l : List Nat) (m off n : Nat) (h : off + n ≤ m) :
    readLE (l.take m) off n = readLE l off n := by
  apply readLE_congr
  intro i hi
  exact getD_take_lt l m (off + i) (by omega)

theorem readLE_cons (a : Nat) (l : List Nat) (off n : Nat) :
    readLE (a :: l) (off + 1) n = readLE l off n := by
  apply readLE_congr
  intro i hi
  rw [show off + 1 + i = off + i + 1 by omega, List.getD_cons_succ]

theorem readLE_packLE (v n : Nat) : readLE (packLE v n) 0 n = v % 256 ^ n := by
  induction n generalizing v with
  | zero => simp [readLE, packLE, Nat.mod_one]
  | succ n ih =>
    have h1 : readLE (v % 256 :: packLE (v / 256) n) (0 + 1) n =
        readLE (packLE (v / 256) n) 0 n := readLE_cons _ _ 0 n
    simp only [packLE, readLE, Nat.zero_add] at h1 ⊢
    rw [h1, ih, List.getD_cons_zero, show (256 : Nat) ^ (n + 1) = 256 * 256 ^ n by
      rw [pow_succ, Nat.mul_comm], Nat.mod_mul]

theorem pySlice_eq_take_drop (d : List Nat) (a b : Nat) :
    pySlice d a b = (d.drop a).take (b - a) := by
  induction d generalizing a b with
  | nil => simp [pySlice]
  | cons x t ih =>
    cases a with
    | zero => simp [pySlice]
    | succ a =>
      cases b with
      | zero => simp [pySlice]
      | succ b =>
          simpa [pySlice, List.take_succ_cons, List.drop_succ_cons,
            Nat.succ_sub_succ] using ih a b

theorem pySlice_take (d : List Nat) (m a b : Nat) (h : b ≤ m) :
    pySlice (d.take m) a b = pySlice d a b := by
  unfold pySlice
  rw [List.take_take, Nat.min_eq_left h]

/-! ### The byte effect of `set_expire_nginx_cache_file` -/

theorem set_expire_eq (d : List Nat) (v : Nat) (hlen : 8 ≤ d.length)
    (hv : v < 2 ^ 64) :
    set_expire_nginx_cache_file d v =
      some (d.take 8 ++ packLE v 8 ++ d.drop 16) := by
  unfold set_expire_nginx_cache_file struct_pack_Q
  rw [if_pos hv]
  simp [show 8 - d.length = 0 by omega]

theorem length_patched (d : List Nat) (v : Nat) (hlen : 16 ≤ d.length) :
    (d.take 8 ++ packLE v 8 ++ d.drop 16).length = d.length := by
  simp only [List.length_append, length_packLE, List.length_take, List.length_drop]
  omega

theorem getD_patched (d : List Nat) (v i : Nat) (hlen : 16 ≤ d.length) :
    (d.take 8 ++ packLE v 8 ++ d.drop 16).getD i 0 =
      if i < 8 then d.getD i 0
      else if i < 16 then (packLE v 8).getD (i - 8) 0
      else d.getD i 0 := by
  have hlt8 : (d.take 8).length = 8 := by simp [List.length_take]; omega
  have hlen16 : (d.take 8 ++ packLE v 8).length = 16 := by
    simp [List.length_take, length_packLE]
    omega
  by_cases h8 : i < 8
  · rw [if_pos h8, List.getD_append _ _ _ _ (by omega),
      List.getD_append _ _ _ _ (by omega), getD_take_lt _ _ _ h8]
  · rw [if_neg h8]
    by_cases h16 : i < 16
    · rw [if_pos h16, List.getD_append _ _ _ _ (by omega),
        List.getD_append_right _ _ _ _ (by omega), hlt8]
    · rw [if_neg h16, List.getD_append_right _ _ _ _ (by omega), hlen16,
        getD_drop_add, show 16 + (i - 16) = i by omega]

theorem drop_patched (d : List Nat) (v a : Nat) (hlen : 16 ≤ d.length)
    (ha : 16 ≤ a) :
    (d.take 8 ++ packLE v 8 ++ d.drop 16).drop a = d.drop a := by
  have hlen16 : (d.take 8 ++ packLE v 8).length = 16 := by
    simp [List.length_take, length_packLE]
    omega
  conv_lhs =>
    rw [show a = (d.take 8 ++ packLE v 8).length + (a - 16) by rw [hlen16]; omega]
  rw [List.drop_append, List.drop_drop, show 16 + (a - 16) = a by omega]

theorem pySlice_patched (d : List Nat) (v a b : Nat) (hlen : 16 ≤ d.length)
    (ha : 16 ≤ a) :
    pySlice (d.take 8 ++ packLE v 8 ++ d.drop 16) a b = pySlice d a b := by
  rw [pySlice_eq_take_drop, pySlice_eq_take_drop, drop_patched d v a hlen ha]

theorem readLE_patched_of_ge (d : List Nat) (v off n : Nat) (hlen : 16 ≤ d.length)
    (hoff : 16 ≤ off) :
    readLE (d.take 8 ++ packLE v 8 ++ d.drop 16) off n = readLE d off n := by
  apply readLE_congr
  intro i hi
  rw [getD_patched d v _ hlen, if_neg (by omega), if_neg (by omega)]

theorem readLE_patched_version (d : List Nat) (v : Nat) (hlen : 16 ≤ d.length) :
    readLE (d.take 8 ++ packLE v 8 ++ d.drop 16) 0 8 = readLE d 0 8 := by
  apply readLE_congr
  intro i hi
  rw [getD_patched d v _ hlen, if_pos (by omega)]

theorem readLE_patched_valid_sec (d : List Nat) (v : Nat) (hlen : 16 ≤ d.length) :
    readLE (d.take 8 ++ packLE v 8 ++ d.drop 16) 8 8 = v % 2 ^ 64 := by
  have h : readLE (d.take 8 ++ packLE v 8 ++ d.drop 16) 8 8 =
      readLE (packLE v 8) 0 8 := by
    apply readLE_congr
    intro i hi
    rw [getD_patched d v _ hlen, if_neg (by omega), if_pos (by omega),
      show 8 + i - 8 = 0 + i by omega]
  rw [h, readLE_packLE]
  norm_num

/-! ### Claim C1: the version check -/

/-- Claim C1: for every buffer of at least the 336 header bytes, decode fails
with the `unsupportedVersion` error exactly when the 64-bit little-endian
version field at bytes 0..7 is not 5; when it is 5 the version check passes
(any later failure carries a different error). -/
theorem version_check_iff (d : List Nat) (hlen : 336 ≤ d.length) :
    ((parse_nginx_cache_file d).1 =
        .error (.unsupportedVersion (readLE (d.take 336) 0 8))) ↔
      readLE (d.take 336) 0 8 ≠ 5 := by
  have h59 : ¬((d.take 336).length < 59) := by
    simp only [List.length_take, not_lt]
    omega
  constructor
  · intro h
    intro hver
    unfold parse_nginx_cache_file at h
    simp only [NGINX_CACHE_HEADER_SIZE] at h
    rw [if_neg h59] at h
    rw [if_neg (by simp [hver])] at h
    split at h
    next e heqv =>
      simp only [] at h
      injection h with h
      exact absurd ((datetime_or_none_error heqv).symm.trans h) (by simp)
    next vsec heqv =>
    split at h
    next e heql =>
      simp only [] at h
      injection h with h
      exact absurd ((datetime_or_none_error heql).symm.trans h) (by simp)
    next lmod heql =>
    split at h
    next e heqd =>
      simp only [] at h
      injection h with h
      exact absurd ((datetime_or_none_error heqd).symm.trans h) (by simp)
    next dat heqd =>
    split at h
    next e heq =>
      simp only [] at h
      injection h with h
      exact absurd ((string_or_none_error heq).symm.trans h) (by simp)
    next etag heq =>
    split at h
    next e heq2 =>
      simp only [] at h
      injection h with h
      exact absurd ((string_or_none_error heq2).symm.trans h) (by simp)
    next vary heq2 =>
    split at h
    next e heq3 =>
      simp only [] at h
      injection h with h
      exact absurd ((string_or_none_error heq3).symm.trans h) (by simp)
    next variant heq3 =>
    split at h
    next e heq4 =>
      simp only [] at h
      injection h with h
      rcases extract_key_error heq4 with h' | h' <;>
        exact absurd (h'.symm.trans h) (by simp)
    next key heq4 =>
    split at h
    next e heq5 =>
      simp only [] at h
      injection h with h
      exact absurd ((decode_ascii_error heq5).symm.trans h) (by simp)
    next http heq5 =>
      simp only [] at h
      exact absurd h (by simp)
  · intro hver
    unfold parse_nginx_cache_file
    simp only [NGINX_CACHE_HEADER_SIZE]
    rw [if_neg h59, if_pos hver]

end

/-- Witness for C1 at a concrete all-zero 336-byte file: the version field
decodes to 0, so parsing fails with `unsupportedVersion 0`. -/
theorem version_check_iff_witness :
    (parse_nginx_cache_file (List.replicate 336 0)).1 =
      .error
        (.unsupportedVersion (readLE ((List.replicate 336 0).take 336) 0 8)) :=
  (version_check_iff (List.replicate 336 0) (by decide)).mpr (by decide)

/-! ### Claim C2: the optional-text fields -/

/-- Value of a fixed-width optional-text buffer as the code actually computes
it on buffers it accepts: absent exactly for a nonempty all-zero buffer, and
otherwise the ENTIRE buffer as text — trailing zero bytes are not stripped. -/
def textField (bs : List Nat) : Option (List Nat) :=
  if isAllZero bs then none else some bs

theorem string_or_none_ok {bs : List Nat} {v : Option (List Nat)}
    (h : string_or_none bs = .ok v) : v = textField bs := by
  unfold string_or_none at h
  unfold textField
  split at h
  next hz => rw [if_pos hz]; injection h with h; exact h.symm
  next hz =>
    rw [if_neg hz]
    unfold decode_ascii at h
    split at h
    · simp only [Except.map] at h
      injection h with h
      exact h.symm
    · simp [Except.map] at h

/-- Claim C2 counterexample: the buffer `[97, 0]` (`"a"` followed by one zero
byte) contains a non-zero byte, and the source decodes it to the two-character
text `[97, 0]` — the trailing zero byte is NOT stripped, contradicting the
claimed result `[97]`. -/
theorem optional_text_strip_counterexample :
    string_or_none [97, 0] = .ok (some [97, 0]) ∧
      string_or_none [97, 0] ≠ .ok (some [97]) := by decide

/-- Claim C2 (amended): for each of the three fixed-width optional-text fields
(etag, vary, variant), a successful decode yields the absent value exactly for
an all-zero buffer, and otherwise the ASCII text of the ENTIRE buffer, with
trailing zero bytes retained (not stripped). -/
theorem optional_text_fields (d : List Nat) (r : ParseOutput) (w : Bool)
    (h : parse_nginx_cache_file d = (.ok r, w)) :
    r.hdr.etag = textField (pySlice (d.take 336) 59 187) ∧
    r.hdr.vary = textField (pySlice (d.take 336) 188 316) ∧
    r.hdr.variant = textField (pySlice (d.take 336) 316 332) := by
  obtain ⟨-, -, -, -, -, -, -, -, -, -, -, -, -, -, hetag, hvary, hvariant, -, -,
    -, -⟩ := parse_ok_inv h
  exact ⟨string_or_none_ok hetag, string_or_none_ok hvary,
    string_or_none_ok hvariant⟩

/-- Witness for C2 at `goodFile`: its all-zero etag buffer decodes to absent. -/
theorem optional_text_fields_witness :
    goodParsed.hdr.etag = textField (pySlice (goodFile.take 336) 59 187) :=
  (optional_text_fields goodFile goodParsed false (by decide)).1

/-! ### Claim C3: the optional-instant fields -/

/-- A version-5 file identical in shape to `goodFile` except that the raw
valid_sec field at bytes 8..15 holds `2 ^ 40` — not the sentinel, but far
beyond `datetime.fromtimestamp`'s year-9999 range. -/
def bigTimeFile : List Nat :=
  [5] ++ List.replicate 7 0 ++ [0, 0, 0, 0, 0, 1, 0, 0] ++
    List.replicate 38 0 ++ [93, 1, 93, 1] ++ List.replicate 278 0 ++
    [10, 75, 69, 89, 58, 32, 97, 98, 99, 100, 101, 102, 10]

/-- Claim C3 counterexample: `bigTimeFile`'s raw valid_sec is `2 ^ 40`, a value
other than the sentinel, yet decode does NOT yield a header carrying that
instant — `datetime.fromtimestamp` raises (year out of range, line 31 via
line 99 of the source) and decoding fails. -/
theorem optional_instant_overflow_counterexample :
    readLE (bigTimeFile.take 336) 8 8 = 2 ^ 40 ∧
      (2 : Nat) ^ 40 ≠ 2 ^ 64 - 1 ∧
      parse_nginx_cache_file bigTimeFile =
        (.error .timestampOutOfRange, false) := by decide

section

attribute [local irreducible] datetime_or_none

/-- Claim C3 (amended): for valid_sec, last_modified and date the sentinel
`2^64 - 1` decodes to the absent value; any other value decodes to the instant
with that many epoch seconds only when it lies within
`datetime.fromtimestamp`'s range — every successfully decoded header has its
non-sentinel timestamp fields in range, and a version-5 header whose raw
valid_sec is non-sentinel and out of range fails to decode with the timestamp
error instead.  updating_sec and error_sec are returned as raw integers with
no sentinel translation and no conversion at all. -/
theorem optional_instant_fields (d : List Nat) (r : ParseOutput) (w : Bool)
    (h : parse_nginx_cache_file d = (.ok r, w)) :
    (r.hdr.valid_sec = if readLE (d.take 336) 8 8 = 2 ^ 64 - 1 then none
      else some (readLE (d.take 336) 8 8)) ∧
    (readLE (d.take 336) 8 8 ≠ 2 ^ 64 - 1 →
      readLE (d.take 336) 8 8 ≤ DATETIME_MAX_TIMESTAMP) ∧
    (r.hdr.last_modified = if readLE (d.take 336) 32 8 = 2 ^ 64 - 1 then none
      else some (readLE (d.take 336) 32 8)) ∧
    (readLE (d.take 336) 32 8 ≠ 2 ^ 64 - 1 →
      readLE (d.take 336) 32 8 ≤ DATETIME_MAX_TIMESTAMP) ∧
    (r.hdr.date = if readLE (d.take 336) 40 8 = 2 ^ 64 - 1 then none
      else some (readLE (d.take 336) 40 8)) ∧
    (readLE (d.take 336) 40 8 ≠ 2 ^ 64 - 1 →
      readLE (d.take 336) 40 8 ≤ DATETIME_MAX_TIMESTAMP) ∧
    r.hdr.updating_sec = readLE (d.take 336) 16 8 ∧
    r.hdr.error_sec = readLE (d.take 336) 24 8 ∧
    (∀ d' : List Nat, 336 ≤ d'.length → readLE (d'.take 336) 0 8 = 5 →
      readLE (d'.take 336) 8 8 ≠ 2 ^ 64 - 1 →
      DATETIME_MAX_TIMESTAMP < readLE (d'.take 336) 8 8 →
      parse_nginx_cache_file d' = (.error .timestampOutOfRange, false)) := by
  obtain ⟨-, -, -, hvs, hus, hes, hlm, hdt, -, -, -, -, -, -, -, -, -, -, -,
    -, -⟩ := parse_ok_inv h
  obtain ⟨hvs1, hvs2⟩ := datetime_or_none_ok hvs
  obtain ⟨hlm1, hlm2⟩ := datetime_or_none_ok hlm
  obtain ⟨hdt1, hdt2⟩ := datetime_or_none_ok hdt
  refine ⟨hvs1, hvs2, hlm1, hlm2, hdt1, hdt2, hus, hes, ?_⟩
  intro d' hlen' hver' hne' hgt'
  have h59' : ¬((d'.take 336).length < 59) := by
    simp only [List.length_take, not_lt]
    omega
  have hfail : datetime_or_none (readLE (d'.take 336) 8 8) =
      .error .timestampOutOfRange := by
    unfold datetime_or_none fromtimestamp
    rw [if_neg hne', if_neg (by omega)]
    rfl
  unfold parse_nginx_cache_file
  simp only [NGINX_CACHE_HEADER_SIZE]
  rw [if_neg h59', if_neg (by simp [hver']), hfail]

end

/-- Witness for C3's amended theorem at `goodFile`: its raw valid_sec field is
0, not the sentinel and within range, and decodes to the instant 0. -/
theorem optional_instant_fields_witness :
    goodParsed.hdr.valid_sec = if readLE (goodFile.take 336) 8 8 = 2 ^ 64 - 1
      then none else some (readLE (goodFile.take 336) 8 8) :=
  (optional_instant_fields goodFile goodParsed false (by decide)).1

/-! ### Claim C4: where vary_len is read -/

/-- Like `goodFile`, but the byte at offset 187 (the vary_len position of the
nginx struct layout, right after the 128-byte etag buffer) is 7. -/
def varyFile : List Nat :=
  [5] ++ List.replicate 53 0 ++ [93, 1, 93, 1] ++ List.replicate 129 0 ++ [7] ++
    List.replicate 148 0 ++
    [10, 75, 69, 89, 58, 32, 97, 98, 99, 100, 101, 102, 10]

/-- Claim C4 evidence: `varyFile` has byte 7 at offset 187 and decodes
successfully, yet the decoded vary_len is 5 — the source calls
`struct.unpack_from('B', header)` without an offset argument, so it reads the
byte at offset 0 (the low byte of the version field) instead of offset 187. -/
theorem vary_len_read_at_offset_zero :
    varyFile.getD 187 0 = 7 ∧ varyFile.getD 0 0 = 5 ∧
      Except.map (fun r => r.hdr.vary_len) (parse_nginx_cache_file varyFile).1 =
        .ok 5 := by decide

/-! ### Claim C5: no header_start ≤ body_start validation -/

/-- A 350-byte file with `header_start = 350` GREATER than `body_start = 340`
and key region `"\nKEY: abcdefg\n"`. -/
def invFile : List Nat :=
  [5] ++ List.replicate 53 0 ++ [94, 1, 84, 1] ++ List.replicate 278 0 ++
    [10, 75, 69, 89, 58, 32, 97, 98, 99, 100, 101, 102, 103, 10]

/-- The parse of `invFile`. -/
def invParsed : ParseOutput :=
  { hdr :=
    { version := 5
      valid_sec := some 0
      updating_sec := 0
      error_sec := 0
      last_modified := some 0
      date := some 0
      crc32 := 0
      valid_msec := 0
      header_start := 350
      body_start := 340
      etag_len := 0
      etag := none
      vary_len := 5
      vary := none
      variant := none }
    key := [97, 98, 99, 100, 101, 102, 103]
    http_header := []
    http_body := [58, 32, 97, 98, 99, 100, 101, 102, 103, 10] }

/-- Claim C5 counterexample: `invFile` declares `header_start = 350` strictly
greater than `body_start = 340`, yet decode succeeds — the source never
compares the two offsets and raises no InvalidOffsets error. -/
theorem no_offset_ordering_check :
    parse_nginx_cache_file invFile = (.ok invParsed, false) ∧
      invParsed.hdr.body_start < invParsed.hdr.header_start := by decide

/-- Claim C5 (amended): decode performs no header_start ≤ body_start
validation; a header with header_start > body_start (more generally,
body_start ≤ header_start) still decodes successfully, its http-header slice
merely collapsing to the empty string. -/
theorem no_offset_validation (d : List Nat) (r : ParseOutput) (w : Bool)
    (h : parse_nginx_cache_file d = (.ok r, w))
    (hbs : r.hdr.body_start ≤ r.hdr.header_start) :
    r.http_header = [] := by
  obtain ⟨-, -, -, -, -, -, -, -, -, -, -, -, -, -, -, -, -, -, hhttp, -, -⟩ :=
    parse_ok_inv h
  have hempty : pySlice d r.hdr.header_start r.hdr.body_start = [] := by
    rw [pySlice_eq_take_drop, show r.hdr.body_start - r.hdr.header_start = 0 by
      omega, List.take_zero]
  rw [hempty] at hhttp
  have : decode_ascii ([] : List Nat) = .ok [] := by decide
  rw [this] at hhttp
  injection hhttp with hhttp
  exact hhttp.symm

/-- Witness for C5's amended theorem at `invFile`. -/
theorem no_offset_validation_witness : invParsed.http_header = [] :=
  no_offset_validation invFile invParsed false (by decide) (by decide)

/-! ### Claim C6: no bounds check against the file length -/

/-- Like `goodFile` but with `body_start = 1000`, far beyond the 349-byte file. -/
def truncFile : List Nat :=
  [5] ++ List.replicate 53 0 ++ [93, 1, 232, 3] ++ List.replicate 278 0 ++
    [10, 75, 69, 89, 58, 32, 97, 98, 99, 100, 101, 102, 10]

/-- The parse of `truncFile`. -/
def truncParsed : ParseOutput :=
  { hdr :=
    { version := 5
      valid_sec := some 0
      updating_sec := 0
      error_sec := 0
      last_modified := some 0
      date := some 0
      crc32 := 0
      valid_msec := 0
      header_start := 349
      body_start := 1000
      etag_len := 0
      etag := none
      vary_len := 5
      vary := none
      variant := none }
    key := [97, 98, 99, 100, 101, 102]
    http_header := []
    http_body := [] }

/-- Claim C6 counterexample: `truncFile` is 349 bytes long yet declares
`body_start = 1000`; decode (and with it the slice extraction) succeeds —
Python slicing clamps to the file length and no TruncatedFile error exists. -/
theorem no_bounds_check_counterexample :
    parse_nginx_cache_file truncFile = (.ok truncParsed, false) ∧
      truncFile.length < truncParsed.hdr.body_start := by decide

/-- Claim C6 (amended): extraction performs no bounds check of the declared
offsets against the file length; slices are clamped, so with body_start beyond
the end of the file decode still succeeds and returns an empty body. -/
theorem no_bounds_check (d : List Nat) (r : ParseOutput) (w : Bool)
    (h : parse_nginx_cache_file d = (.ok r, w))
    (hpast : d.length ≤ r.hdr.body_start) :
    r.http_body = [] := by
  obtain ⟨-, -, -, -, -, -, -, -, -, -, -, -, -, -, -, -, -, -, -, hbody, -⟩ :=
    parse_ok_inv h
  rw [hbody]
  exact List.drop_eq_nil_of_le hpast

/-- Witness for C6's amended theorem at `truncFile`. -/
theorem no_bounds_check_witness : truncParsed.http_body = [] :=
  no_bounds_check truncFile truncParsed false (by decide) (by decide)

/-! ### Claim C7: the key region and its delimiters -/

/-- Like `goodFile`, but with the non-ASCII byte 200 inside the key region. -/
def badKeyFile : List Nat :=
  [5] ++ List.replicate 53 0 ++ [93, 1, 93, 1] ++ List.replicate 278 0 ++
    [10, 75, 69, 89, 58, 32, 200, 98, 99, 100, 101, 102, 10]

/-- Claim C7 counterexample: when the key region fails to decode as ASCII the
error is `nonAscii` (Python raises UnicodeDecodeError from `bytes.decode`), not
the key-delimiter assertion error the claim assigns to every failure of its
condition. -/
theorem key_non_ascii_counterexample :
    parse_nginx_cache_file badKeyFile = (.error .nonAscii, false) ∧
      ParseError.nonAscii ≠ ParseError.badKeyDelimiter := by decide

/-- Claim C7 (amended): the key region a successful parse consumes is exactly
`d[336:header_start]`; on an ASCII region, extraction fails with
`badKeyDelimiter` exactly when the region does not begin with the literal
`"\nKEY: "` or does not end with `"\n"`, and when both delimiters are present
the logical key is the substring strictly between them (a non-ASCII region
instead fails with `nonAscii`). -/
theorem key_delimiter_spec (bs : List Nat) (hascii : ∀ x ∈ bs, x < 128) :
    (extract_key bs = .error .badKeyDelimiter ↔
      ¬(bs.take 6 = nKEY ∧ bs.getLastD 0 = 10)) ∧
    (bs.take 6 = nKEY → bs.getLastD 0 = 10 →
      extract_key bs = .ok ((bs.take (bs.length - 1)).drop 6)) ∧
    (∀ d (r : ParseOutput) (w : Bool), parse_nginx_cache_file d = (.ok r, w) →
      extract_key (pySlice d 336 r.hdr.header_start) = .ok r.key) := by
  have hd : decode_ascii bs = .ok bs := by
    unfold decode_ascii
    rw [if_pos]
    simpa [List.all_eq_true, decide_eq_true_eq] using hascii
  have hkey : ∀ d (r : ParseOutput) (w : Bool),
      parse_nginx_cache_file d = (.ok r, w) →
      extract_key (pySlice d 336 r.hdr.header_start) = .ok r.key := by
    intro d r w h
    obtain ⟨-, -, -, -, -, -, -, -, -, -, -, -, -, -, -, -, -, hk, -, -, -⟩ :=
      parse_ok_inv h
    exact hk
  unfold extract_key
  rw [hd]
  simp only []
  by_cases h1 : bs.take 6 = nKEY
  · by_cases h2 : bs.getLastD 0 = 10
    · refine ⟨?_, fun _ _ => by rw [if_pos h1, if_pos h2], hkey⟩
      rw [if_pos h1, if_pos h2]
      constructor
      · intro hcontr
        exact absurd hcontr (by simp)
      · intro hcontr
        exact absurd ⟨h1, h2⟩ hcontr
    · refine ⟨?_, fun _ hc => absurd hc h2, hkey⟩
      rw [if_pos h1, if_neg h2]
      exact ⟨fun _ hc => h2 hc.2, fun _ => rfl⟩
  · refine ⟨?_, fun hc _ => absurd hc h1, hkey⟩
    rw [if_neg h1]
    exact ⟨fun _ hc => h1 hc.1, fun _ => rfl⟩

/-- Witness for C7's amended theorem at the concrete ASCII region
`"\nKEY: a\n"`: extraction succeeds and returns the key `"a"`. -/
theorem key_delimiter_spec_witness :
    extract_key [10, 75, 69, 89, 58, 32, 97, 10] = .ok [97] := by
  have h := (key_delimiter_spec [10, 75, 69, 89, 58, 32, 97, 10]
    (by decide)).2.1 (by decide) (by decide)
  rw [h]
  decide

/-! ### Claim C8: patching the expiry field -/

theorem extract_key_ok_length {bs k : List Nat} (h : extract_key bs = .ok k) :
    6 ≤ bs.length := by
  unfold extract_key at h
  split at h
  · exact absurd h (by simp)
  next key hd =>
    have hbs : key = bs := by
      unfold decode_ascii at hd
      split at hd
      · injection hd with hd; exact hd.symm
      · exact absurd hd (by simp)
    subst hbs
    split at h
    next h1 =>
      have hl := congrArg List.length h1
      simp only [List.length_take, nKEY, List.length_cons, List.length_nil] at hl
      omega
    · exact absurd h (by simp)

/-- Claim C8: on a file of length at least 16 that decodes successfully,
patching the expiry to an instant `v` (an actual instant, i.e. a value
`datetime.fromtimestamp` accepts — which also excludes the sentinel) produces
a file of the same length whose bytes 8..15 hold the little-endian encoding of
`v` and whose every other byte is unchanged, and a subsequent decode succeeds,
with the same warning flag, valid_sec equal to the patched instant, and every
other header field, the key and the http-header text equal to their values
before patching. -/
theorem patch_then_parse (d : List Nat) (v : Nat) (r : ParseOutput) (w : Bool)
    (hlen : 16 ≤ d.length) (hv : v ≤ DATETIME_MAX_TIMESTAMP)
    (h : parse_nginx_cache_file d = (.ok r, w)) :
    ∃ P, set_expire_nginx_cache_file d v = some P ∧
      P.length = d.length ∧
      readLE P 8 8 = v ∧
      (∀ i, i < 8 ∨ 16 ≤ i → P.getD i 0 = d.getD i 0) ∧
      (∀ i, 8 ≤ i → i < 16 → P.getD i 0 = (packLE v 8).getD (i - 8) 0) ∧
      ∃ r', parse_nginx_cache_file P = (.ok r', w) ∧
        r'.hdr.valid_sec = some v ∧
        r'.hdr.version = r.hdr.version ∧
        r'.hdr.updating_sec = r.hdr.updating_sec ∧
        r'.hdr.error_sec = r.hdr.error_sec ∧
        r'.hdr.last_modified = r.hdr.last_modified ∧
        r'.hdr.date = r.hdr.date ∧
        r'.hdr.crc32 = r.hdr.crc32 ∧
        r'.hdr.valid_msec = r.hdr.valid_msec ∧
        r'.hdr.header_start = r.hdr.header_start ∧
        r'.hdr.body_start = r.hdr.body_start ∧
        r'.hdr.etag_len = r.hdr.etag_len ∧
        r'.hdr.etag = r.hdr.etag ∧
        r'.hdr.vary_len = r.hdr.vary_len ∧
        r'.hdr.vary = r.hdr.vary ∧
        r'.hdr.variant = r.hdr.variant ∧
        r'.key = r.key ∧
        r'.http_header = r.http_header := by
  have h64 : (2 : Nat) ^ 64 = 18446744073709551616 := by norm_num
  have hv64 : v < 2 ^ 64 := by
    rw [h64]
    unfold DATETIME_MAX_TIMESTAMP at hv
    omega
  obtain ⟨h59, hver, hrv, hrvs, hrus, hres, hrlm, hrdt, hrcrc, hrvm, hrhs, hrbs,
    hrel, hrvl, hretag, hrvary, hrvariant, hrkey, hrhttp, hrbody, hrw⟩ :=
    parse_ok_inv h
  have hhs342 : 342 ≤ r.hdr.header_start ∧ 342 ≤ d.length := by
    have h6 := extract_key_ok_length hrkey
    have hls : (pySlice d 336 r.hdr.header_start).length =
        min r.hdr.header_start d.length - 336 := by
      simp [pySlice, List.length_drop, List.length_take]
    rw [hls] at h6
    omega
  have hlenP : (d.take 8 ++ packLE v 8 ++ d.drop 16).length = d.length :=
    length_patched d v hlen
  have h59P : 59 ≤ (d.take 8 ++ packLE v 8 ++ d.drop 16).length := by
    rw [hlenP]; omega
  have hTread : ∀ off n, off + n ≤ 336 → 16 ≤ off →
      readLE ((d.take 8 ++ packLE v 8 ++ d.drop 16).take 336) off n =
        readLE (d.take 336) off n := by
    intro off n hn hoff
    rw [readLE_take _ _ _ _ hn, readLE_patched_of_ge d v off n hlen hoff,
      readLE_take d 336 off n hn]
  have hver' : readLE ((d.take 8 ++ packLE v 8 ++ d.drop 16).take 336) 0 8 = 5 := by
    rw [readLE_take _ _ _ _ (by omega), readLE_patched_version d v hlen,
      ← readLE_take d 336 0 8 (by omega)]
    exact hver
  have hvs' : readLE ((d.take 8 ++ packLE v 8 ++ d.drop 16).take 336) 8 8 = v := by
    rw [readLE_take _ _ _ _ (by omega), readLE_patched_valid_sec d v hlen,
      Nat.mod_eq_of_lt hv64]
  have hvsP : datetime_or_none
      (readLE ((d.take 8 ++ packLE v 8 ++ d.drop 16).take 336) 8 8) =
        .ok (some v) := by
    rw [hvs']
    exact datetime_or_none_in_range hv
  have hlmP : datetime_or_none
      (readLE ((d.take 8 ++ packLE v 8 ++ d.drop 16).take 336) 32 8) =
        .ok r.hdr.last_modified := by
    rw [hTread 32 8 (by omega) (by omega)]
    exact hrlm
  have hdtP : datetime_or_none
      (readLE ((d.take 8 ++ packLE v 8 ++ d.drop 16).take 336) 40 8) =
        .ok r.hdr.date := by
    rw [hTread 40 8 (by omega) (by omega)]
    exact hrdt
  have hgetD58 : ((d.take 8 ++ packLE v 8 ++ d.drop 16).take 336).getD 58 0 =
      (d.take 336).getD 58 0 := by
    rw [getD_take_lt _ _ _ (by omega), getD_take_lt _ _ _ (by omega),
      getD_patched d v 58 hlen, if_neg (by omega), if_neg (by omega)]
  have hgetD0 : ((d.take 8 ++ packLE v 8 ++ d.drop 16).take 336).getD 0 0 =
      (d.take 336).getD 0 0 := by
    rw [getD_take_lt _ _ _ (by omega), getD_take_lt _ _ _ (by omega),
      getD_patched d v 0 hlen, if_pos (by omega)]
  have hslice : ∀ a b : Nat, 16 ≤ a → b ≤ 336 →
      pySlice ((d.take 8 ++ packLE v 8 ++ d.drop 16).take 336) a b =
        pySlice (d.take 336) a b := by
    intro a b ha hb
    rw [pySlice_take _ _ _ _ hb, pySlice_take _ _ _ _ hb,
      pySlice_patched d v a b hlen ha]
  have hetag' : string_or_none
      (pySlice ((d.take 8 ++ packLE v 8 ++ d.drop 16).take 336) 59 187) =
        .ok r.hdr.etag := by
    rw [hslice 59 187 (by omega) (by omega)]
    exact hretag
  have hvary' : string_or_none
      (pySlice ((d.take 8 ++ packLE v 8 ++ d.drop 16).take 336) 188 316) =
        .ok r.hdr.vary := by
    rw [hslice 188 316 (by omega) (by omega)]
    exact hrvary
  have hvariant' : string_or_none
      (pySlice ((d.take 8 ++ packLE v 8 ++ d.drop 16).take 336) 316 332) =
        .ok r.hdr.variant := by
    rw [hslice 316 332 (by omega) (by omega)]
    exact hrvariant
  have hhs' : readLE ((d.take 8 ++ packLE v 8 ++ d.drop 16).take 336) 54 2 =
      r.hdr.header_start := by
    rw [hTread 54 2 (by omega) (by omega)]
    exact hrhs.symm
  have hbs' : readLE ((d.take 8 ++ packLE v 8 ++ d.drop 16).take 336) 56 2 =
      r.hdr.body_start := by
    rw [hTread 56 2 (by omega) (by omega)]
    exact hrbs.symm
  have hkey' : extract_key (pySlice (d.take 8 ++ packLE v 8 ++ d.drop 16) 336
      (readLE ((d.take 8 ++ packLE v 8 ++ d.drop 16).take 336) 54 2)) =
        .ok r.key := by
    rw [hhs', pySlice_patched d v 336 _ hlen (by omega)]
    exact hrkey
  have hhttp' : decode_ascii (pySlice (d.take 8 ++ packLE v 8 ++ d.drop 16)
      (readLE ((d.take 8 ++ packLE v 8 ++ d.drop 16).take 336) 54 2)
      (readLE ((d.take 8 ++ packLE v 8 ++ d.drop 16).take 336) 56 2)) =
        .ok r.http_header := by
    rw [hhs', hbs', pySlice_patched d v _ _ hlen (by omega)]
    exact hrhttp
  have hP := parse_ok_intro h59P hver' hvsP hlmP hdtP hetag' hvary' hvariant'
    hkey' hhttp'
  rw [pySlice_patched d v 332 336 hlen (by omega), ← hrw] at hP
  refine ⟨d.take 8 ++ packLE v 8 ++ d.drop 16,
    set_expire_eq d v (by omega) hv64, hlenP, ?_, ?_, ?_, ?_⟩
  · rw [readLE_patched_valid_sec d v hlen]
    exact Nat.mod_eq_of_lt hv64
  · intro i hi
    rcases hi with hi | hi
    · rw [getD_patched d v i hlen, if_pos hi]
    · rw [getD_patched d v i hlen, if_neg (by omega), if_neg (by omega)]
  · intro i h8 h16
    rw [getD_patched d v i hlen, if_neg (by omega), if_pos h16]
  refine ⟨_, hP, ?_, ?_, ?_, ?_, ?_, ?_, ?_, ?_, ?_, ?_, ?_, ?_, ?_, ?_, ?_,
    ?_, ?_⟩
  · simp only []
  · simp only []
    rw [hver']
    exact hrv.symm
  · simp only []
    rw [hTread 16 8 (by omega) (by omega)]
    exact hrus.symm
  · simp only []
    rw [hTread 24 8 (by omega) (by omega)]
    exact hres.symm
  · simp only []
  · simp only []
  · simp only []
    rw [hTread 48 4 (by omega) (by omega)]
    exact hrcrc.symm
  · simp only []
    rw [hTread 52 2 (by omega) (by omega)]
    exact hrvm.symm
  · simp only []
    rw [hhs']
  · simp only []
    rw [hbs']
  · simp only []
    rw [hgetD58]
    exact hrel.symm
  · simp only []
  · simp only []
    rw [hgetD0]
    exact hrvl.symm
  · simp only []
  · simp only []
  · simp only []
  · simp only []

/-- Witness for C8 at `goodFile` with the patched instant 42. -/
theorem patch_then_parse_witness :
    ∃ P, set_expire_nginx_cache_file goodFile 42 = some P ∧
      P.length = goodFile.length ∧
      readLE P 8 8 = 42 ∧
      (∀ i, i < 8 ∨ 16 ≤ i → P.getD i 0 = goodFile.getD i 0) ∧
      (∀ i, 8 ≤ i → i < 16 → P.getD i 0 = (packLE 42 8).getD (i - 8) 0) ∧
      ∃ r', parse_nginx_cache_file P = (.ok r', false) ∧
        r'.hdr.valid_sec = some 42 ∧
        r'.hdr.version = goodParsed.hdr.version ∧
        r'.hdr.updating_sec = goodParsed.hdr.updating_sec ∧
        r'.hdr.error_sec = goodParsed.hdr.error_sec ∧
        r'.hdr.last_modified = goodParsed.hdr.last_modified ∧
        r'.hdr.date = goodParsed.hdr.date ∧
        r'.hdr.crc32 = goodParsed.hdr.crc32 ∧
        r'.hdr.valid_msec = goodParsed.hdr.valid_msec ∧
        r'.hdr.header_start = goodParsed.hdr.header_start ∧
        r'.hdr.body_start = goodParsed.hdr.body_start ∧
        r'.hdr.etag_len = goodParsed.hdr.etag_len ∧
        r'.hdr.etag = goodParsed.hdr.etag ∧
        r'.hdr.vary_len = goodParsed.hdr.vary_len ∧
        r'.hdr.vary = goodParsed.hdr.vary ∧
        r'.hdr.variant = goodParsed.hdr.variant ∧
        r'.key = goodParsed.key ∧
        r'.http_header = goodParsed.http_header :=
  patch_then_parse goodFile 42 goodParsed false (by decide) (by decide)
    (by decide)

/-! ### Claim C9: patching performs no validation -/

/-- Claim C9: the patch operation validates nothing about the header: for every
file of length at least 16 and every 64-bit value, even when decode rejects the
file outright (`herr` — e.g. an unsupported version), the patch succeeds at the
byte level and produces the byte-spliced file. -/
theorem patch_no_validation (d : List Nat) (v : Nat) (e : ParseError)
    (hlen : 16 ≤ d.length) (hv : v < 2 ^ 64)
    (_herr : (parse_nginx_cache_file d).1 = .error e) :
    set_expire_nginx_cache_file d v =
      some (d.take 8 ++ packLE v 8 ++ d.drop 16) :=
  set_expire_eq d v (by omega) hv

/-- Witness for C9 at the all-zero 336-byte file, which decode rejects with
`unsupportedVersion 0`; the patch nevertheless succeeds. -/
theorem patch_no_validation_witness :
    set_expire_nginx_cache_file (List.replicate 336 0) 99 =
      some ((List.replicate 336 0).take 8 ++ packLE 99 8 ++
        (List.replicate 336 0).drop 16) :=
  patch_no_validation (List.replicate 336 0) 99 (.unsupportedVersion 0)
    (by decide) (by decide) (by decide)

/-! ### Claim C10: the trailing-padding check is non-fatal -/

theorem isAllZero_iff (bs : List Nat) (hne : bs ≠ []) :
    isAllZero bs = true ↔ ∀ x ∈ bs, x = 0 := by
  unfold isAllZero
  simp [hne, List.all_eq_true, decide_eq_true_eq, List.isEmpty_iff]

/-- A version-5 file with the out-of-range raw valid_sec `2 ^ 40` (as in
`bigTimeFile`) AND a non-zero byte (1) at offset 333, inside the 4 trailing
padding bytes. -/
def padBigFile : List Nat :=
  [5] ++ List.replicate 7 0 ++ [0, 0, 0, 0, 0, 1, 0, 0] ++
    List.replicate 38 0 ++ [93, 1, 93, 1] ++ List.replicate 275 0 ++ [1] ++
    List.replicate 2 0 ++
    [10, 75, 69, 89, 58, 32, 97, 98, 99, 100, 101, 102, 10]

/-- Claim C10 counterexample: `padBigFile` is a version-5 header buffer with a
non-zero trailing padding byte (offset 333), yet decode neither emits the
warning (the flag is `false`) nor returns a valid header: the
`datetime.fromtimestamp` call at source line 99 raises before the padding
check at lines 119-124 is ever reached. -/
theorem trailing_padding_preempted_counterexample :
    readLE (padBigFile.take 336) 0 8 = 5 ∧
      padBigFile.getD 333 0 = 1 ∧
      parse_nginx_cache_file padBigFile =
        (.error .timestampOutOfRange, false) := by decide

section

attribute [local irreducible] datetime_or_none

/-- Claim C10 (amended): when decoding a version-5 header reaches the padding
check — that is, the three timestamp conversions and the three text-buffer
decodes at lines 99-117 all succeed — the stderr warning is emitted exactly
when the 4 trailing header bytes `d[332:336]` are not all zero, and the check
is non-fatal: any decode failure then carries a key-delimiter or ASCII error,
never one caused by the padding bytes.  A failure before the check (bad
version, out-of-range timestamp, non-ASCII text buffer) pre-empts it and no
warning is printed. -/
theorem trailing_padding_warning (d : List Nat)
    (vsv lmv dtv : Option Nat)
    (etagv varyv variantv : Option (List Nat))
    (hlen : 336 ≤ d.length)
    (hver : readLE (d.take 336) 0 8 = 5)
    (hvs : datetime_or_none (readLE (d.take 336) 8 8) = .ok vsv)
    (hlm : datetime_or_none (readLE (d.take 336) 32 8) = .ok lmv)
    (hdt : datetime_or_none (readLE (d.take 336) 40 8) = .ok dtv)
    (hetag : string_or_none (pySlice (d.take 336) 59 187) = .ok etagv)
    (hvary : string_or_none (pySlice (d.take 336) 188 316) = .ok varyv)
    (hvariant : string_or_none (pySlice (d.take 336) 316 332) = .ok variantv) :
    ((parse_nginx_cache_file d).2 = true ↔
      ¬(∀ x ∈ pySlice d 332 336, x = 0)) ∧
    (∀ e (w' : Bool), parse_nginx_cache_file d = (.error e, w') →
      e = .nonAscii ∨ e = .badKeyDelimiter) := by
  have h59 : ¬((d.take 336).length < 59) := by
    simp only [List.length_take, not_lt]
    omega
  have hl4 : (pySlice d 332 336).length = 4 := by
    simp only [pySlice, List.length_drop, List.length_take]
    omega
  have hne : pySlice d 332 336 ≠ [] := by
    intro hcontra
    rw [hcontra] at hl4
    simp at hl4
  constructor
  · have h2eq : (parse_nginx_cache_file d).2 =
        !isAllZero (pySlice d 332 336) := by
      unfold parse_nginx_cache_file
      simp only [NGINX_CACHE_HEADER_SIZE]
      rw [if_neg h59, if_neg (by simp [hver]), hvs]
      simp only []
      rw [hlm]
      simp only []
      rw [hdt]
      simp only []
      rw [hetag]
      simp only []
      rw [hvary]
      simp only []
      rw [hvariant]
      simp only []
      split
      · simp only []
      · split
        · simp only []
        · simp only []
    rw [h2eq]
    rw [Bool.not_eq_eq_eq_not, Bool.not_true, ← Bool.not_eq_true,
      not_iff_not, isAllZero_iff _ hne]
  · intro e w' herr
    unfold parse_nginx_cache_file at herr
    simp only [NGINX_CACHE_HEADER_SIZE] at herr
    rw [if_neg h59, if_neg (by simp [hver]), hvs] at herr
    simp only [] at herr
    rw [hlm] at herr
    simp only [] at herr
    rw [hdt] at herr
    simp only [] at herr
    rw [hetag] at herr
    simp only [] at herr
    rw [hvary] at herr
    simp only [] at herr
    rw [hvariant] at herr
    simp only [] at herr
    split at herr
    next e' heq =>
      injection herr with h1 h2
      injection h1 with h1
      subst h1
      exact extract_key_error heq
    next key heq =>
    split at herr
    next e' heq2 =>
      injection herr with h1 h2
      injection h1 with h1
      subst h1
      exact Or.inl (decode_ascii_error heq2)
    next http heq2 =>
      injection herr with h1 h2
      exact absurd h1 (by simp)

end

/-- Like `goodFile`, but with a non-zero byte (1) at offset 333, inside the
4 trailing padding bytes. -/
def padFile : List Nat :=
  [5] ++ List.replicate 53 0 ++ [93, 1, 93, 1] ++ List.replicate 275 0 ++ [1] ++
    List.replicate 2 0 ++ [10, 75, 69, 89, 58, 32, 97, 98, 99, 100, 101, 102, 10]

/-- Witness for C10's amended theorem at `padFile`, whose padding byte at
offset 333 is 1 and whose timestamps and text buffers all decode: parsing
reaches the check and the warning is emitted while decode succeeds. -/
theorem trailing_padding_warning_witness :
    ((parse_nginx_cache_file padFile).2 = true ↔
      ¬(∀ x ∈ pySlice padFile 332 336, x = 0)) ∧
    (∀ e (w' : Bool), parse_nginx_cache_file padFile = (.error e, w') →
      e = .nonAscii ∨ e = .badKeyDelimiter) :=
  trailing_padding_warning padFile (some 0) (some 0) (some 0) none none none
    (by decide) (by decide) (by decide) (by decide) (by decide) (by decide)
    (by decide) (by decide)

end NginxCacheInfo
